import Mathlib

/-!
Verification of the pi-elixir connection broker (`src/extensions/tidewave-client.ts`)
and embedded MCP server (`src/scripts/embedded_tidewave.exs`) against their
natural-language specification.

The TypeScript broker is embedded as a pure state machine: the module-level
maps (`embeddedProcesses`, `embeddedFailed`, `connectionCache`) become a
`BrokerState`, the network and the clock become explicit inputs (the outcome
of the concurrent port probe, `Date.now()`), and the child-process event
handlers become state-transition functions.  The Elixir server's ring-buffer
logger, eval deadline race and the two HTTP routers are embedded as pure
functions over a small JSON value type.
-/

namespace PiElixir

/-! ### Connection broker data model (`tidewave-client.ts`) -/

/-- `ConnectionKind` from `tidewave-client.ts` (`'native' | 'embedded' | 'starting' | null`);
the `null` case is represented by `Option ConnectionKind` at use sites that need it,
while cached entries only ever hold `native` or `embedded`. -/
inductive ConnectionKind where
  | native
  | embedded
  | starting
deriving DecidableEq

/-- `EmbeddedProcess` record from `tidewave-client.ts`: `{ proc, url, port, ready }`.
The OS process handle has no observable content; spawns are tracked as events. -/
structure EmbeddedProcess where
  url : String
  port : Nat
  ready : Bool
deriving DecidableEq

/-- `CachedConnection` from `tidewave-client.ts`: `{ url, kind, timestamp }`. -/
structure CachedConnection where
  url : String
  kind : ConnectionKind
  timestamp : Nat
deriving DecidableEq

/-- The module-level mutable state of `tidewave-client.ts`: the
`embeddedProcesses` map, the `embeddedFailed` set and the `connectionCache`
map, all keyed by project directory (`cwd`). -/
structure BrokerState where
  embeddedProcesses : String → Option EmbeddedProcess
  embeddedFailed : String → Bool
  connectionCache : String → Option CachedConnection

/-- The initial module state: all three registries empty. -/
def initState : BrokerState where
  embeddedProcesses := fun _ => none
  embeddedFailed := fun _ => false
  connectionCache := fun _ => none

/-- The environment variables read by `resolveUrl`: `tidewaveUrl` is
`TIDEWAVE_URL` as seen by the JavaScript truthiness check (`none` when unset
or empty), `disableEmbedded` is `PI_ELIXIR_DISABLE_EMBEDDED === '1'`. -/
structure Env where
  tidewaveUrl : Option String
  disableEmbedded : Bool

/-- `CACHE_TTL = 30_000` (`tidewave-client.ts`). -/
def CACHE_TTL : Nat := 30000

/-! ### Discovery (`readAppName`, `discoverNativeTidewave`) -/

/-- A JavaScript `\w` word character: `[A-Za-z0-9_]`. -/
def isWordChar (c : Char) : Bool :=
  ('a' ≤ c && c ≤ 'z') || ('A' ≤ c && c ≤ 'Z') || ('0' ≤ c && c ≤ '9') || c = '_'

/-- A JavaScript `\s` whitespace character (the cases relevant to text files). -/
def isSpaceChar (c : Char) : Bool :=
  c = ' ' || c = '\t' || c = '\n' || c = '\r' || c = '\x0b' || c = '\x0c'

/-- Strip an exact leading character sequence, returning the remainder. -/
def stripPfx : List Char → List Char → Option (List Char)
  | [], l => some l
  | _ :: _, [] => none
  | p :: ps, c :: cs => if c = p then stripPfx ps cs else none

/-- Try the regex `app:\s*:(\w+)` anchored at the current position, returning
the captured word.  (`\s` and `:` are disjoint, so greedy whitespace
consumption is exact.) -/
def matchAppNameAt (l : List Char) : Option String :=
  match stripPfx "app:".toList l with
  | none => none
  | some rest =>
    match rest.dropWhile isSpaceChar with
    | ':' :: rest2 =>
      let word := rest2.takeWhile isWordChar
      if word.isEmpty then none else some (String.mk word)
    | _ => none

/-- First match of `app:\s*:(\w+)`, scanning left to right as `String.match` does. -/
def findAppName : List Char → Option String
  | [] => none
  | c :: cs =>
    match matchAppNameAt (c :: cs) with
    | some w => some w
    | none => findAppName cs

/-- `readAppName` from `tidewave-client.ts`: read `mix.exs` (the `Option` input
models `fs.readFileSync` succeeding or throwing) and extract the first
`app: :name` occurrence; any failure yields `null`. -/
def readAppName (mixExs : Option String) : Option String :=
  match mixExs with
  | none => none
  | some content => findAppName content.toList

/-- One successful probe response: the candidate `/tidewave/mcp` URL together
with the `project_name` from its `/config` payload. -/
structure ProbeResponder where
  url : String
  projectName : String
deriving DecidableEq

/-- `discoverNativeTidewave` from `tidewave-client.ts`.  The network is
abstracted to `results`: the probe responders that answered, in probe-port
order (`Promise.all` preserves the order of `PROBE_PORTS`). -/
def discoverNativeTidewave (mixExs : Option String) (results : List ProbeResponder) :
    Option String :=
  let appName := readAppName mixExs
  if results.isEmpty then none
  else
    match appName with
    | some name => (results.find? (fun r => r.projectName == name)).map (fun r => r.url)
    | none => results.head?.map (fun r => r.url)

/-! ### Embedded process lifecycle (`startEmbeddedInBackground` and handlers) -/

/-- `startEmbeddedInBackground` from `tidewave-client.ts`: no-op when a record
already exists; otherwise installs the fresh record `{ url: '', port: 0,
ready: false }`.  The returned flag reports whether a child was spawned. -/
def startEmbeddedInBackground (s : BrokerState) (cwd : String) : BrokerState × Bool :=
  match s.embeddedProcesses cwd with
  | some _ => (s, false)
  | none =>
    ({ s with
        embeddedProcesses := fun k =>
          if k = cwd then some { url := "", port := 0, ready := false }
          else s.embeddedProcesses k },
      true)

/-- Digits-to-number, as `parseInt(_, 10)` computes on the captured digit run. -/
def digitsToNat (ds : List Char) : Nat :=
  ds.foldl (fun acc c => acc * 10 + (c.toNat - '0'.toNat)) 0

/-- Try the regex `port=(\d+)` anchored at the current position. -/
def matchPortAt (l : List Char) : Option Nat :=
  match stripPfx "port=".toList l with
  | none => none
  | some rest =>
    let ds := rest.takeWhile Char.isDigit
    if ds.isEmpty then none else some (digitsToNat ds)

/-- First match of `port=(\d+)`, scanning left to right. -/
def findPort : List Char → Option Nat
  | [] => none
  | c :: cs =>
    match matchPortAt (c :: cs) with
    | some n => some n
    | none => findPort cs

/-- `text.includes(needle)`. -/
def containsSub (needle : List Char) : List Char → Bool
  | [] => needle.isEmpty
  | c :: cs => (stripPfx needle (c :: cs)).isSome || containsSub needle cs

/-- `text.includes('PI_MCP_READY')`. -/
def containsMarker (text : String) : Bool :=
  containsSub "PI_MCP_READY".toList text.toList

/-- The stdout `data` handler installed by `startEmbeddedInBackground`: when
the entry is not yet ready and the chunk contains `PI_MCP_READY`, record the
port and URL if `port=(\d+)` matches, mark the entry ready (unconditionally),
and delete the connection-cache entry for this directory. -/
def handleStdoutChunk (s : BrokerState) (cwd : String) (text : String) : BrokerState :=
  match s.embeddedProcesses cwd with
  | none => s
  | some entry =>
    if !entry.ready && containsMarker text then
      let entry' :=
        match findPort text.toList with
        | some p =>
          { entry with
              port := p
              url := "http://127.0.0.1:" ++ toString p ++ "/mcp"
              ready := true }
        | none => { entry with ready := true }
      { s with
          embeddedProcesses := fun k => if k = cwd then some entry' else s.embeddedProcesses k
          connectionCache := fun k => if k = cwd then none else s.connectionCache k }
    else s

/-- The `error` handler (spawn failure): delete the process record and mark
the directory failed.  Note: unlike the `exit` handler, it does not touch the
connection cache. -/
def handleProcError (s : BrokerState) (cwd : String) : BrokerState :=
  { s with
      embeddedProcesses := fun k => if k = cwd then none else s.embeddedProcesses k
      embeddedFailed := fun k => if k = cwd then true else s.embeddedFailed k }

/-- The `exit` handler: delete the process record, delete the cache entry, and
mark the directory failed when the process had not signalled readiness.  (When
the record was already removed from the registry, only the cache delete is
observable through the modelled state.) -/
def handleProcExit (s : BrokerState) (cwd : String) : BrokerState :=
  match s.embeddedProcesses cwd with
  | some entry =>
    { s with
        embeddedProcesses := fun k => if k = cwd then none else s.embeddedProcesses k
        connectionCache := fun k => if k = cwd then none else s.connectionCache k
        embeddedFailed :=
          if entry.ready then s.embeddedFailed
          else fun k => if k = cwd then true else s.embeddedFailed k }
  | none =>
    { s with connectionCache := fun k => if k = cwd then none else s.connectionCache k }

/-- `stopEmbedded`: kill the child (a later `exit` event is a separate step)
and delete the record. -/
def stopEmbedded (s : BrokerState) (cwd : String) : BrokerState :=
  match s.embeddedProcesses cwd with
  | some _ =>
    { s with embeddedProcesses := fun k => if k = cwd then none else s.embeddedProcesses k }
  | none => s

/-! ### `resolveUrl` -/

/-- The full observable outcome of one `resolveUrl` call: its return value,
the module state afterwards, and whether a child process was spawned. -/
structure ResolveOutcome where
  result : Option (String × ConnectionKind)
  state : BrokerState
  spawned : Bool

/-- `connectionCache.set(cwd, c)`. -/
def setCache (s : BrokerState) (cwd : String) (c : CachedConnection) : BrokerState :=
  { s with connectionCache := fun k => if k = cwd then some c else s.connectionCache k }

/-- The tail of `resolveUrl` after the override and cache checks
(`tidewave-client.ts` lines 226-245): discovery, the disable/failed guards,
and the embedded-process consultation. -/
def resolveAfterCache (env : Env) (discovery : Option String) (now : Nat)
    (s : BrokerState) (cwd : String) : ResolveOutcome :=
  match discovery with
  | some nativeUrl =>
    { result := some (nativeUrl, .native)
      state := setCache s cwd { url := nativeUrl, kind := .native, timestamp := now }
      spawned := false }
  | none =>
    if env.disableEmbedded then { result := none, state := s, spawned := false }
    else if s.embeddedFailed cwd then { result := none, state := s, spawned := false }
    else
      match s.embeddedProcesses cwd with
      | some e =>
        if e.ready then
          { result := some (e.url, .embedded)
            state := setCache s cwd { url := e.url, kind := .embedded, timestamp := now }
            spawned := false }
        else { result := none, state := s, spawned := false }
      | none =>
        let started := startEmbeddedInBackground s cwd
        { result := none, state := started.1, spawned := started.2 }

/-- `resolveUrl` from `tidewave-client.ts`.  `discovery` is the outcome the
concurrent port probe would report (`discoverNativeTidewave`), `now` is
`Date.now()`. -/
def resolveUrl (env : Env) (discovery : Option String) (now : Nat)
    (s : BrokerState) (cwd : String) : ResolveOutcome :=
  match env.tidewaveUrl with
  | some u => { result := some (u, .native), state := s, spawned := false }
  | none =>
    match s.connectionCache cwd with
    | some c =>
      if now - c.timestamp < CACHE_TTL then
        { result := some (c.url, c.kind), state := s, spawned := false }
      else resolveAfterCache env discovery now s cwd
    | none => resolveAfterCache env discovery now s cwd

/-! ### Operation traces over the broker state -/

/-- One externally triggered step against the broker's module state, all
addressed to one project directory. -/
inductive BrokerOp where
  | resolve (env : Env) (discovery : Option String) (now : Nat)
  | stdoutChunk (text : String)
  | procError
  | procExit
  | stop

/-- Apply one step; the flag reports whether this step spawned a child. -/
def brokerStep (s : BrokerState) (cwd : String) : BrokerOp → BrokerState × Bool
  | .resolve env disc now =>
    let o := resolveUrl env disc now s cwd
    (o.state, o.spawned)
  | .stdoutChunk text => (handleStdoutChunk s cwd text, false)
  | .procError => (handleProcError s cwd, false)
  | .procExit => (handleProcExit s cwd, false)
  | .stop => (stopEmbedded s cwd, false)

/-- Run a trace of steps. -/
def runOps (s : BrokerState) : List (String × BrokerOp) → BrokerState
  | [] => s
  | (cwd, op) :: rest => runOps (brokerStep s cwd op).1 rest

/-- Number of child processes spawned for `target` along a trace. -/
def spawnCount (s : BrokerState) (ops : List (String × BrokerOp)) (target : String) : Nat :=
  match ops with
  | [] => 0
  | (cwd, op) :: rest =>
    let step := brokerStep s cwd op
    (if step.2 && cwd = target then 1 else 0) + spawnCount step.1 rest target

/-! ### Helper lemmas about `resolveUrl` -/

/-- The cache is not consulted past its TTL: with no override and no fresh
entry, `resolveUrl` is the post-cache continuation. -/
theorem resolveUrl_cache_miss (env : Env) (d : Option String) (now : Nat)
    (s : BrokerState) (cwd : String)
    (henv : env.tidewaveUrl = none)
    (hmiss : ∀ c, s.connectionCache cwd = some c → CACHE_TTL ≤ now - c.timestamp) :
    resolveUrl env d now s cwd = resolveAfterCache env d now s cwd := by
  cases hc : s.connectionCache cwd with
  | none => simp only [resolveUrl, henv, hc]
  | some c =>
    have h2 := hmiss c hc
    simp only [resolveUrl, henv, hc, if_neg (Nat.not_lt.mpr h2)]

theorem spawned_of_resolveAfterCache (env : Env) (d : Option String) (now : Nat)
    (s : BrokerState) (cwd : String)
    (hsp : (resolveAfterCache env d now s cwd).spawned = true) :
    s.embeddedProcesses cwd = none ∧ s.embeddedFailed cwd = false ∧
      (resolveAfterCache env d now s cwd).state.embeddedProcesses cwd =
        some { url := "", port := 0, ready := false } := by
  cases hd : d with
  | some u => simp [resolveAfterCache, hd] at hsp
  | none =>
    cases hdis : env.disableEmbedded with
    | true => simp [resolveAfterCache, hd, hdis] at hsp
    | false =>
      cases hfail : s.embeddedFailed cwd with
      | true => simp [resolveAfterCache, hd, hdis, hfail] at hsp
      | false =>
        cases hproc : s.embeddedProcesses cwd with
        | some e =>
          cases hr : e.ready with
          | true => simp [resolveAfterCache, hd, hdis, hfail, hproc, hr] at hsp
          | false => simp [resolveAfterCache, hd, hdis, hfail, hproc, hr] at hsp
        | none =>
          refine ⟨rfl, rfl, ?_⟩
          simp [resolveAfterCache, hd, hdis, hfail, hproc, startEmbeddedInBackground]

theorem spawned_of_resolveUrl (env : Env) (d : Option String) (now : Nat)
    (s : BrokerState) (cwd : String)
    (h : (resolveUrl env d now s cwd).spawned = true) :
    s.embeddedProcesses cwd = none ∧ s.embeddedFailed cwd = false ∧
      (resolveUrl env d now s cwd).state.embeddedProcesses cwd =
        some { url := "", port := 0, ready := false } := by
  cases henv : env.tidewaveUrl with
  | some u => simp [resolveUrl, henv] at h
  | none =>
    cases hc : s.connectionCache cwd with
    | none =>
      simp only [resolveUrl, henv, hc] at h ⊢
      exact spawned_of_resolveAfterCache env d now s cwd h
    | some c =>
      by_cases hfresh : now - c.timestamp < CACHE_TTL
      · simp [resolveUrl, henv, hc, hfresh] at h
      · simp only [resolveUrl, henv, hc, if_neg hfresh] at h ⊢
        exact spawned_of_resolveAfterCache env d now s cwd h

/-- `resolveUrl` never mutates the failed set. -/
theorem resolveUrl_embeddedFailed (env : Env) (d : Option String) (now : Nat)
    (s : BrokerState) (cwd : String) :
    (resolveUrl env d now s cwd).state.embeddedFailed = s.embeddedFailed := by
  unfold resolveUrl resolveAfterCache setCache startEmbeddedInBackground
  repeat' split
  all_goals rfl

/-- No broker step ever clears a failed mark. -/
theorem brokerStep_failed_persists (s : BrokerState) (cwd cwd' : String) (op : BrokerOp)
    (h : s.embeddedFailed cwd = true) :
    (brokerStep s cwd' op).1.embeddedFailed cwd = true := by
  cases op with
  | resolve env d now =>
    simp only [brokerStep]
    rw [resolveUrl_embeddedFailed]
    exact h
  | stdoutChunk text =>
    simp only [brokerStep]
    unfold handleStdoutChunk
    repeat' split
    all_goals exact h
  | procError =>
    simp only [brokerStep]
    unfold handleProcError
    by_cases hk : cwd = cwd' <;> simp [hk, h]
  | procExit =>
    simp only [brokerStep]
    unfold handleProcExit
    repeat' split
    all_goals
      first
        | exact h
        | (by_cases hk : cwd = cwd' <;> simp [hk, h])
  | stop =>
    simp only [brokerStep]
    unfold stopEmbedded
    repeat' split
    all_goals exact h

/-- A step can only spawn for a key that is not marked failed. -/
theorem brokerStep_spawn_not_failed (s : BrokerState) (cwd : String) (op : BrokerOp)
    (h : (brokerStep s cwd op).2 = true) : s.embeddedFailed cwd = false := by
  cases op with
  | resolve env d now => exact (spawned_of_resolveUrl env d now s cwd h).2.1
  | stdoutChunk text => simp [brokerStep] at h
  | procError => simp [brokerStep] at h
  | procExit => simp [brokerStep] at h
  | stop => simp [brokerStep] at h

/-! ### Claim theorems: connection broker -/

/-- C1: `resolveUrl` follows the specified resolution order exactly: an
environment override returns immediately tagged native with no state change,
no probe dependence and no spawn; otherwise a fresh cache entry is returned
as is; otherwise successful discovery is cached as native and returned;
otherwise (embedded fallback enabled, directory not marked failed) a ready
embedded record is cached as embedded and returned, a still-starting record
yields none without spawning, and an absent record spawns a child and yields
none. -/
theorem c1_resolve_order (env : Env) (d : Option String) (now : Nat)
    (s : BrokerState) (cwd : String) :
    (∀ u, env.tidewaveUrl = some u →
      resolveUrl env d now s cwd =
        { result := some (u, .native), state := s, spawned := false })
    ∧
    (∀ c, env.tidewaveUrl = none → s.connectionCache cwd = some c →
      now - c.timestamp < CACHE_TTL →
      resolveUrl env d now s cwd =
        { result := some (c.url, c.kind), state := s, spawned := false })
    ∧
    (∀ u, env.tidewaveUrl = none →
      (∀ c, s.connectionCache cwd = some c → CACHE_TTL ≤ now - c.timestamp) →
      d = some u →
      resolveUrl env d now s cwd =
        { result := some (u, .native)
          state := setCache s cwd { url := u, kind := .native, timestamp := now }
          spawned := false })
    ∧
    (env.tidewaveUrl = none →
      (∀ c, s.connectionCache cwd = some c → CACHE_TTL ≤ now - c.timestamp) →
      d = none → env.disableEmbedded = true →
      resolveUrl env d now s cwd = { result := none, state := s, spawned := false })
    ∧
    (∀ e, env.tidewaveUrl = none →
      (∀ c, s.connectionCache cwd = some c → CACHE_TTL ≤ now - c.timestamp) →
      d = none → env.disableEmbedded = false → s.embeddedFailed cwd = false →
      s.embeddedProcesses cwd = some e → e.ready = true →
      resolveUrl env d now s cwd =
        { result := some (e.url, .embedded)
          state := setCache s cwd { url := e.url, kind := .embedded, timestamp := now }
          spawned := false })
    ∧
    (∀ e, env.tidewaveUrl = none →
      (∀ c, s.connectionCache cwd = some c → CACHE_TTL ≤ now - c.timestamp) →
      d = none → env.disableEmbedded = false → s.embeddedFailed cwd = false →
      s.embeddedProcesses cwd = some e → e.ready = false →
      resolveUrl env d now s cwd = { result := none, state := s, spawned := false })
    ∧
    (env.tidewaveUrl = none →
      (∀ c, s.connectionCache cwd = some c → CACHE_TTL ≤ now - c.timestamp) →
      d = none → env.disableEmbedded = false → s.embeddedFailed cwd = false →
      s.embeddedProcesses cwd = none →
      (resolveUrl env d now s cwd).result = none ∧
      (resolveUrl env d now s cwd).spawned = true) := by
  refine ⟨?_, ?_, ?_, ?_, ?_, ?_, ?_⟩
  · intro u henv
    simp only [resolveUrl, henv]
  · intro c henv hc hfresh
    simp only [resolveUrl, henv, hc, if_pos hfresh]
  · intro u henv hmiss hd
    rw [resolveUrl_cache_miss env d now s cwd henv hmiss]
    simp only [resolveAfterCache, hd]
  · intro henv hmiss hd hdis
    rw [resolveUrl_cache_miss env d now s cwd henv hmiss]
    simp [resolveAfterCache, hd, hdis]
  · intro e henv hmiss hd hdis hfail hproc hready
    rw [resolveUrl_cache_miss env d now s cwd henv hmiss]
    simp [resolveAfterCache, hd, hdis, hfail, hproc, hready]
  · intro e henv hmiss hd hdis hfail hproc hready
    rw [resolveUrl_cache_miss env d now s cwd henv hmiss]
    simp [resolveAfterCache, hd, hdis, hfail, hproc, hready]
  · intro henv hmiss hd hdis hfail hproc
    rw [resolveUrl_cache_miss env d now s cwd henv hmiss]
    simp [resolveAfterCache, hd, hdis, hfail, hproc, startEmbeddedInBackground]

/-- Witness for C1: with `TIDEWAVE_URL` set, `resolveUrl` returns the override
tagged native, leaves the (empty) state untouched and spawns nothing. -/
theorem c1_resolve_order_witness :
    resolveUrl { tidewaveUrl := some "http://x:4000/tidewave/mcp", disableEmbedded := false }
        none 0 initState "/proj" =
      { result := some ("http://x:4000/tidewave/mcp", .native)
        state := initState
        spawned := false } :=
  (c1_resolve_order _ _ _ _ _).1 _ rfl

/-- A concrete cached connection used by witnesses below. -/
def sampleCache : CachedConnection :=
  { url := "http://localhost:4000/tidewave/mcp", kind := .native, timestamp := 100 }

/-- A concrete broker state holding `sampleCache` for `"/proj"`. -/
def sampleState : BrokerState :=
  { initState with connectionCache := fun k => if k = "/proj" then some sampleCache else none }

/-- C3: with no override, a cache entry younger than 30000 ms is returned
verbatim — same connection, unchanged state, no spawn, and a result term that
does not depend on the probe input — while an entry at or past 30000 ms is
skipped: the call behaves exactly like the post-cache continuation, so
discovery runs (a successful probe is cached as a fresh native entry). -/
theorem c3_cache_ttl (env : Env) (d : Option String) (now : Nat)
    (s : BrokerState) (cwd : String) (c : CachedConnection)
    (henv : env.tidewaveUrl = none) (hc : s.connectionCache cwd = some c) :
    (now - c.timestamp < CACHE_TTL →
      resolveUrl env d now s cwd =
        { result := some (c.url, c.kind), state := s, spawned := false })
    ∧
    (CACHE_TTL ≤ now - c.timestamp →
      resolveUrl env d now s cwd = resolveAfterCache env d now s cwd
      ∧ ∀ u, d = some u →
          (resolveUrl env d now s cwd).result = some (u, .native)
          ∧ (resolveUrl env d now s cwd).state.connectionCache cwd =
              some { url := u, kind := .native, timestamp := now }) := by
  constructor
  · intro hfresh
    simp only [resolveUrl, henv, hc, if_pos hfresh]
  · intro hstale
    have hmiss : ∀ c', s.connectionCache cwd = some c' → CACHE_TTL ≤ now - c'.timestamp := by
      intro c' hc'
      rw [hc] at hc'
      cases hc'
      exact hstale
    have heq := resolveUrl_cache_miss env d now s cwd henv hmiss
    refine ⟨heq, ?_⟩
    intro u hd
    rw [heq]
    simp [resolveAfterCache, hd, setCache]

/-- C2: when `mix.exs` yields a project name, discovery only ever selects a
responder reporting exactly that name, and yields none when no responder
matches (no accept-any fallback); when the name is unreadable, discovery
selects the first responder in probe-port order. -/
theorem c2_discovery_policy (mixExs : Option String) (results : List ProbeResponder) :
    (∀ name, readAppName mixExs = some name →
      (∀ url, discoverNativeTidewave mixExs results = some url →
        ∃ r ∈ results, r.url = url ∧ r.projectName = name)
      ∧ ((∀ r ∈ results, r.projectName ≠ name) →
        discoverNativeTidewave mixExs results = none))
    ∧ (readAppName mixExs = none →
      ∀ r rest, results = r :: rest →
        discoverNativeTidewave mixExs results = some r.url) := by
  constructor
  · intro name hname
    constructor
    · intro url hurl
      simp only [discoverNativeTidewave, hname] at hurl
      cases hres : results.isEmpty with
      | true => rw [hres] at hurl; simp at hurl
      | false =>
        rw [hres] at hurl
        simp only [if_false, Bool.false_eq_true, Option.map_eq_some'] at hurl
        obtain ⟨r, hfind, hru⟩ := hurl
        refine ⟨r, List.mem_of_find?_eq_some hfind, hru, ?_⟩
        have := List.find?_some hfind
        exact eq_of_beq this
    · intro hnomatch
      simp only [discoverNativeTidewave, hname]
      cases hres : results.isEmpty with
      | true => simp
      | false =>
        simp only [if_false, Bool.false_eq_true]
        have hfind : results.find? (fun r => r.projectName == name) = none := by
          rw [List.find?_eq_none]
          intro r hr
          simpa using hnomatch r hr
        rw [hfind]
        rfl
  · intro hname r rest hres
    subst hres
    simp [discoverNativeTidewave, hname]

/-- Witness for C2: with `mix.exs` declaring `app: :my_app` and two responders
named `other_app` and `my_app`, discovery picks the matching responder. -/
theorem c2_discovery_policy_witness :
    ∃ r ∈ [({ url := "http://localhost:4000/tidewave/mcp", projectName := "other_app" } :
              ProbeResponder),
           { url := "http://localhost:4001/tidewave/mcp", projectName := "my_app" }],
      r.url = "http://localhost:4001/tidewave/mcp" ∧ r.projectName = "my_app" :=
  ((c2_discovery_policy (some "  def project do\n    [app: :my_app]\n  end")
        [{ url := "http://localhost:4000/tidewave/mcp", projectName := "other_app" },
         { url := "http://localhost:4001/tidewave/mcp", projectName := "my_app" }]).1
      "my_app" (by decide)).1 _ (by decide)

/-- C4: a child process is spawned only by a resolve step that found no
process record for the key (and it installs the fresh record); the exit
handler removes the record; and two consecutive resolve calls for a
never-before-seen directory (no cache entry, no record, not failed, discovery
failing, fallback enabled) spawn exactly one child. -/
theorem c4_single_record :
    (∀ s cwd op, (brokerStep s cwd op).2 = true →
      s.embeddedProcesses cwd = none ∧
        (brokerStep s cwd op).1.embeddedProcesses cwd =
          some { url := "", port := 0, ready := false })
    ∧ (∀ s cwd, (handleProcExit s cwd).embeddedProcesses cwd = none)
    ∧ (∀ env d n1 n2 s cwd,
        env.tidewaveUrl = none → d = none → env.disableEmbedded = false →
        s.connectionCache cwd = none → s.embeddedFailed cwd = false →
        s.embeddedProcesses cwd = none →
        spawnCount s [(cwd, .resolve env d n1), (cwd, .resolve env d n2)] cwd = 1) := by
  refine ⟨?_, ?_, ?_⟩
  · intro s cwd op h
    cases op with
    | resolve env d now =>
      simp only [brokerStep] at h ⊢
      have := spawned_of_resolveUrl env d now s cwd h
      exact ⟨this.1, this.2.2⟩
    | stdoutChunk text => simp [brokerStep] at h
    | procError => simp [brokerStep] at h
    | procExit => simp [brokerStep] at h
    | stop => simp [brokerStep] at h
  · intro s cwd
    cases hproc : s.embeddedProcesses cwd with
    | some e => simp [handleProcExit, hproc]
    | none => simp [handleProcExit, hproc]
  · intro env d n1 n2 s cwd henv hd hdis hcache hfail hproc
    have e1 : resolveUrl env d n1 s cwd =
        { result := none
          state := { s with
            embeddedProcesses := fun k =>
              if k = cwd then some { url := "", port := 0, ready := false }
              else s.embeddedProcesses k }
          spawned := true } := by
      simp [resolveUrl, henv, hcache, resolveAfterCache, hd, hdis, hfail, hproc,
        startEmbeddedInBackground]
    have e2 : resolveUrl env d n2
        { s with
          embeddedProcesses := fun k =>
            if k = cwd then some { url := "", port := 0, ready := false }
            else s.embeddedProcesses k } cwd =
        { result := none
          state := { s with
            embeddedProcesses := fun k =>
              if k = cwd then some { url := "", port := 0, ready := false }
              else s.embeddedProcesses k }
          spawned := false } := by
      simp [resolveUrl, henv, hcache, resolveAfterCache, hd, hdis, hfail]
    simp [spawnCount, brokerStep, e1, e2]

/-- Witness for C4: two consecutive resolves on the empty initial state spawn
exactly one child for `"/proj"`. -/
theorem c4_single_record_witness :
    spawnCount initState
      [("/proj", .resolve { tidewaveUrl := none, disableEmbedded := false } none 0),
       ("/proj", .resolve { tidewaveUrl := none, disableEmbedded := false } none 5)]
      "/proj" = 1 :=
  c4_single_record.2.2 _ _ _ _ _ _ rfl rfl rfl rfl rfl rfl

/-- Witness for C3: at 200 ms after a resolution cached at 100 ms, the entry
is fresh and is returned verbatim with no state change and no spawn. -/
theorem c3_cache_ttl_witness :
    resolveUrl { tidewaveUrl := none, disableEmbedded := false } none 200 sampleState "/proj" =
      { result := some (sampleCache.url, sampleCache.kind)
        state := sampleState
        spawned := false } :=
  (c3_cache_ttl _ _ _ _ _ sampleCache rfl (by simp [sampleState])).1 (by decide)

/-- A not-yet-ready embedded process record, as installed at spawn time. -/
def startingRecord : EmbeddedProcess := { url := "", port := 0, ready := false }

/-- A broker state in which `"/proj"` has a starting (not ready) embedded
record and a stale cache entry. -/
def preFailureState : BrokerState :=
  { embeddedProcesses := fun k => if k = "/proj" then some startingRecord else none
    embeddedFailed := fun _ => false
    connectionCache := fun k => if k = "/proj" then some sampleCache else none }

/-- Counterexample to C5 as stated.  First divergence: the spawn-failure
(`error`) handler removes the record and marks the key failed but does **not**
invalidate the cache entry — after a spawn failure for `"/proj"` the cached
connection is still present, while the claim says it is invalidated.  Second
divergence: after an exit-before-readiness, a subsequent resolve is not
unconditionally `none` — here discovery succeeds and the resolve returns a
native connection. -/
theorem c5_counterexample :
    ((handleProcError preFailureState "/proj").connectionCache "/proj" = some sampleCache)
    ∧ ((resolveUrl { tidewaveUrl := none, disableEmbedded := false }
          (some "http://localhost:4001/tidewave/mcp") 40000
          (handleProcExit preFailureState "/proj") "/proj").result
        = some ("http://localhost:4001/tidewave/mcp", .native)) := by
  constructor
  · rfl
  · rfl

/-- C5 (amended): the spawn-failure handler removes the record and marks the
key failed but leaves the cache untouched; exit before readiness removes the
record, invalidates the cache and marks the key failed; exit after readiness
removes the record and invalidates the cache without marking the key failed;
a failed mark persists across every subsequent operation and suppresses every
further spawn for that key; and any subsequent resolve that reaches the
embedded fallback (no override, stale-or-missing cache, discovery failure)
returns none without spawning. -/
theorem c5_failure_semantics :
    (∀ s cwd,
      (handleProcError s cwd).embeddedProcesses cwd = none
      ∧ (handleProcError s cwd).embeddedFailed cwd = true
      ∧ ∀ k, (handleProcError s cwd).connectionCache k = s.connectionCache k)
    ∧
    (∀ s cwd e, s.embeddedProcesses cwd = some e → e.ready = false →
      (handleProcExit s cwd).embeddedProcesses cwd = none
      ∧ (handleProcExit s cwd).connectionCache cwd = none
      ∧ (handleProcExit s cwd).embeddedFailed cwd = true)
    ∧
    (∀ s cwd e, s.embeddedProcesses cwd = some e → e.ready = true →
      (handleProcExit s cwd).embeddedProcesses cwd = none
      ∧ (handleProcExit s cwd).connectionCache cwd = none
      ∧ (handleProcExit s cwd).embeddedFailed cwd = s.embeddedFailed cwd)
    ∧
    (∀ s cwd ops, s.embeddedFailed cwd = true →
      (runOps s ops).embeddedFailed cwd = true ∧ spawnCount s ops cwd = 0)
    ∧
    (∀ env d now s cwd, env.tidewaveUrl = none → d = none →
      (∀ c, s.connectionCache cwd = some c → CACHE_TTL ≤ now - c.timestamp) →
      s.embeddedFailed cwd = true →
      resolveUrl env d now s cwd = { result := none, state := s, spawned := false }) := by
  refine ⟨?_, ?_, ?_, ?_, ?_⟩
  · intro s cwd
    refine ⟨by simp [handleProcError], by simp [handleProcError], fun k => rfl⟩
  · intro s cwd e hproc hready
    simp [handleProcExit, hproc, hready]
  · intro s cwd e hproc hready
    simp [handleProcExit, hproc, hready]
  · intro s cwd ops h
    induction ops generalizing s with
    | nil => exact ⟨h, rfl⟩
    | cons p rest ih =>
      obtain ⟨cwd', op⟩ := p
      have hstep : (brokerStep s cwd' op).1.embeddedFailed cwd = true :=
        brokerStep_failed_persists s cwd cwd' op h
      have hrest := ih _ hstep
      refine ⟨hrest.1, ?_⟩
      have hz : (if (brokerStep s cwd' op).2 && decide (cwd' = cwd) then 1 else 0) = 0 := by
        by_cases hc : cwd' = cwd
        · subst hc
          cases hsp : (brokerStep s cwd' op).2 with
          | false => simp
          | true =>
            have := brokerStep_spawn_not_failed s cwd' op hsp
            rw [this] at h
            exact absurd h (by simp)
        · simp [hc]
      simp only [spawnCount]
      rw [hz, hrest.2]
  · intro env d now s cwd henv hd hmiss hfail
    rw [resolveUrl_cache_miss env d now s cwd henv hmiss]
    simp [resolveAfterCache, hd, hfail]

/-- Witness for C5 (amended): after an exit-before-readiness for `"/proj"`,
the failed mark survives a stop/exit/resolve trace and that trace spawns
nothing for `"/proj"`. -/
theorem c5_failure_semantics_witness :
    (runOps (handleProcExit preFailureState "/proj")
        [("/proj", .stop),
         ("/proj", .resolve { tidewaveUrl := none, disableEmbedded := false } none 50000),
         ("/proj", .procExit)]).embeddedFailed "/proj" = true
    ∧ spawnCount (handleProcExit preFailureState "/proj")
        [("/proj", .stop),
         ("/proj", .resolve { tidewaveUrl := none, disableEmbedded := false } none 50000),
         ("/proj", .procExit)] "/proj" = 0 :=
  c5_failure_semantics.2.2.2.1 _ "/proj" _ (by decide)

/-- A broker state in which `"/proj"` has a starting embedded record and a
stale cache entry still present. -/
def awaitingReadyState : BrokerState :=
  { embeddedProcesses := fun k => if k = "/proj" then some startingRecord else none
    embeddedFailed := fun _ => false
    connectionCache := fun k => if k = "/proj" then some sampleCache else none }

/-- Counterexample to C6 as stated.  A stdout chunk containing the readiness
marker but in which `port=(\d+)` does not match (for example the marker line
split across chunks) flips the ready flag while leaving the endpoint empty:
a reader then observes `ready` with a missing endpoint. -/
theorem c6_counterexample :
    (handleStdoutChunk awaitingReadyState "/proj" "PI_MCP_READY").embeddedProcesses "/proj" =
      some { url := "", port := 0, ready := true } := by
  rfl

/-- C6 (amended): for every stdout chunk that contains the readiness marker
together with a parsable `port=<digits>`, the handler records the resolved
endpoint and flips the ready flag in the same causal step (one atomic state
update) and invalidates the cache entry for the directory; a chunk carrying
the marker but no parsable port still flips the ready flag, leaving the
endpoint as it was (empty for a fresh record). -/
theorem c6_ready_update (s : BrokerState) (cwd text : String) (e : EmbeddedProcess) (p : Nat)
    (hrec : s.embeddedProcesses cwd = some e) (hnr : e.ready = false)
    (hm : containsMarker text = true) (hp : findPort text.toList = some p) :
    (handleStdoutChunk s cwd text).embeddedProcesses cwd =
      some { url := "http://127.0.0.1:" ++ toString p ++ "/mcp", port := p, ready := true }
    ∧ (handleStdoutChunk s cwd text).connectionCache cwd = none := by
  have hp' : findPort text.data = some p := hp
  simp [handleStdoutChunk, hrec, hnr, hm, hp']

/-- Witness for C6 (amended): the real readiness line
`PI_MCP_READY port=4041 server=gen_tcp` sets the endpoint and ready flag
together and clears the cache entry. -/
theorem c6_ready_update_witness :
    (handleStdoutChunk awaitingReadyState "/proj"
        "PI_MCP_READY port=4041 server=gen_tcp").embeddedProcesses "/proj" =
      some { url := "http://127.0.0.1:" ++ toString 4041 ++ "/mcp", port := 4041, ready := true }
    ∧ (handleStdoutChunk awaitingReadyState "/proj"
        "PI_MCP_READY port=4041 server=gen_tcp").connectionCache "/proj" = none :=
  c6_ready_update awaitingReadyState "/proj" _ startingRecord 4041
    (by decide) rfl (by decide) (by decide)

/-! ### Eval sandbox deadline race (`Pi.MCP.Tools.project_eval`) -/

/-- What the spawned evaluation process may deliver to the caller: a
`{:result, r}` message or a `{:DOWN, ...}` monitor notification with the exit
reason already formatted. -/
inductive ChildReport where
  | result (r : String)
  | down (reason : String)

/-- The outcome the caller's `receive` produces for one delivered report. -/
def deliverReport : ChildReport → Except String String
  | .result r => .ok r
  | .down reason => .error ("Process exited: " ++ reason)

/-- The observable outcome of `project_eval`'s `receive ... after timeout`
block: the returned `{:ok, _}`/`{:error, _}` value and whether the child was
forcibly terminated (`Process.exit(pid, :brutal_kill)`). -/
structure EvalOutcome where
  response : Except String String
  killed : Bool

/-- The `receive ... after timeout` race in `project_eval`: `report` is the
first message of the spawned unit together with its arrival time in ms
(`none` when the unit never reports); a report arriving before the deadline
is delivered, otherwise the `after` clause fires, kills the unit and returns
the fixed timeout error naming the deadline. -/
def projectEvalRace (timeout : Nat) (report : Option (Nat × ChildReport)) : EvalOutcome :=
  match report with
  | some (t, rep) =>
    if t < timeout then { response := deliverReport rep, killed := false }
    else
      { response := .error ("Evaluation timed out after " ++ toString timeout ++ "ms")
        killed := true }
  | none =>
    { response := .error ("Evaluation timed out after " ++ toString timeout ++ "ms")
      killed := true }

/-- C7: whenever the deadline elapses before the execution unit reports
(no report, or a report arriving at or after the deadline), `project_eval`
kills the unit and returns the timeout error naming the configured deadline
in milliseconds; and for every input the caller gets exactly one response —
a success value or an error, never both and never neither. -/
theorem c7_eval_timeout (timeout : Nat) (report : Option (Nat × ChildReport)) :
    ((report = none ∨ ∃ t rep, report = some (t, rep) ∧ timeout ≤ t) →
      projectEvalRace timeout report =
        { response := .error ("Evaluation timed out after " ++ toString timeout ++ "ms")
          killed := true })
    ∧ ((∃ v, (projectEvalRace timeout report).response = .ok v) ↔
        ¬ ∃ m, (projectEvalRace timeout report).response = .error m) := by
  constructor
  · intro h
    rcases h with h | ⟨t, rep, h, ht⟩
    · rw [h]; rfl
    · rw [h]
      simp only [projectEvalRace, if_neg (Nat.not_lt.mpr ht)]
  · cases (projectEvalRace timeout report).response with
    | ok v => simp
    | error m => simp

/-- Witness for C7: a report that never arrives within a 30000 ms deadline
yields the kill plus the fixed timeout error. -/
theorem c7_eval_timeout_witness :
    projectEvalRace 30000 none =
      { response := .error ("Evaluation timed out after " ++ toString 30000 ++ "ms")
        killed := true } :=
  (c7_eval_timeout 30000 none).1 (Or.inl rfl)

/-! ### Log ring buffer (`Pi.MCP.Logger`) -/

/-- The `Pi.MCP.Logger` GenServer state `%{logs: queue, size: n, max: 1024}`;
the Erlang queue is embedded as a list with the oldest entry first
(`:queue.to_list` order), entries being `{level, message}` pairs. -/
structure LoggerState where
  logs : List (String × String)
  size : Nat
  max : Nat

/-- `init`: empty queue, size 0, capacity 1024. -/
def loggerInit : LoggerState := { logs := [], size := 0, max := 1024 }

/-- `handle_cast({:log, level, message}, state)`: at capacity, drop the
oldest entry and enqueue (size unchanged); below capacity, enqueue and grow. -/
def logAppend (st : LoggerState) (level message : String) : LoggerState :=
  if st.max ≤ st.size then
    { st with logs := st.logs.tail ++ [(level, message)] }
  else
    { st with logs := st.logs ++ [(level, message)], size := st.size + 1 }

/-- `Enum.take(list, -n)`: the last `n` elements (all of them when `n` is at
least the length). -/
def takeLast (n : Nat) (l : List α) : List α := l.drop (l.length - n)

/-- `handle_call({:get_logs, n, regex, level_filter}, ...)`: filter the whole
buffer by level, then by the grep regex (embedded as an opaque predicate on
the message), project the messages and keep the last `n`. -/
def getLogs (st : LoggerState) (n : Nat) (levelFilter : Option String)
    (grep : Option (String → Bool)) : List String :=
  let logs : List (String × String) := st.logs
  let logs : List (String × String) :=
    match levelFilter with
    | some lv => logs.filter (fun e => e.1 == lv)
    | none => logs
  let logs : List (String × String) :=
    match grep with
    | some p => logs.filter (fun e => p e.2)
    | none => logs
  takeLast n (logs.map Prod.snd)

/-- The level filter as a single predicate. -/
def levelMatches (levelFilter : Option String) (e : String × String) : Bool :=
  match levelFilter with
  | some lv => e.1 == lv
  | none => true

/-- The grep filter as a single predicate. -/
def grepMatches (grep : Option (String → Bool)) (e : String × String) : Bool :=
  match grep with
  | some p => p e.2
  | none => true

theorem takeLast_of_length_le (n : Nat) (l : List α) (h : l.length ≤ n) :
    takeLast n l = l := by
  unfold takeLast
  rw [Nat.sub_eq_zero_of_le h, List.drop_zero]

theorem takeLast_append_right (m : Nat) (a b : List α) (h : m ≤ b.length) :
    takeLast m (a ++ b) = takeLast m b := by
  unfold takeLast
  rw [List.length_append]
  have harith : a.length + b.length - m = a.length + (b.length - m) := by omega
  rw [harith, List.drop_append]

theorem takeLast_absorb (m : Nat) (l r : List α) :
    takeLast m (takeLast m l ++ r) = takeLast m (l ++ r) := by
  by_cases h : l.length ≤ m
  · rw [takeLast_of_length_le m l h]
  · have h2 : m ≤ (List.drop (l.length - m) l ++ r).length := by
      rw [List.length_append, List.length_drop]; omega
    conv_rhs =>
      rw [← List.take_append_drop (l.length - m) l, List.append_assoc,
        takeLast_append_right m _ _ h2]
    rfl

theorem logAppend_logs (st : LoggerState) (lv msg : String)
    (hsz : st.size = st.logs.length) (hle : st.logs.length ≤ st.max)
    (hpos : 0 < st.max) :
    (logAppend st lv msg).logs = takeLast st.max (st.logs ++ [(lv, msg)])
    ∧ (logAppend st lv msg).size = (logAppend st lv msg).logs.length
    ∧ (logAppend st lv msg).logs.length ≤ st.max
    ∧ (logAppend st lv msg).max = st.max := by
  unfold logAppend
  by_cases h : st.max ≤ st.size
  · have hlen : st.logs.length = st.max := by omega
    rw [if_pos h]
    have hdrop : takeLast st.max (st.logs ++ [(lv, msg)]) = st.logs.tail ++ [(lv, msg)] := by
      unfold takeLast
      rw [List.length_append]
      have h1 : st.logs.length + [(lv, msg)].length - st.max = 1 := by simp [hlen]
      rw [h1, List.drop_append_of_le_length (by omega), List.drop_one]
    have htail : st.logs.tail.length = st.logs.length - 1 := List.length_tail _
    refine ⟨hdrop.symm, ?_, ?_, rfl⟩
    · simp only [List.length_append, htail, List.length_cons, List.length_nil]
      omega
    · simp only [List.length_append, htail, List.length_cons, List.length_nil]
      omega
  · rw [if_neg h]
    have hall : takeLast st.max (st.logs ++ [(lv, msg)]) = st.logs ++ [(lv, msg)] := by
      apply takeLast_of_length_le
      rw [List.length_append]
      simp only [List.length_cons, List.length_nil]
      omega
    refine ⟨hall.symm, ?_, ?_, rfl⟩
    · simp only [List.length_append, List.length_cons, List.length_nil]
      omega
    · simp only [List.length_append, List.length_cons, List.length_nil]
      omega

theorem foldl_logAppend_logs (entries : List (String × String)) (st : LoggerState)
    (hsz : st.size = st.logs.length) (hle : st.logs.length ≤ st.max)
    (hpos : 0 < st.max) :
    (entries.foldl (fun acc e => logAppend acc e.1 e.2) st).logs =
      takeLast st.max (st.logs ++ entries) := by
  induction entries generalizing st with
  | nil =>
    simp only [List.foldl_nil, List.append_nil]
    exact (takeLast_of_length_le st.max st.logs hle).symm
  | cons x xs ih =>
    obtain ⟨h1, h2, h3, h4⟩ := logAppend_logs st x.1 x.2 hsz hle hpos
    rw [List.foldl_cons]
    rw [ih (logAppend st x.1 x.2) h2 (h4 ▸ h3) (h4 ▸ hpos)]
    rw [h4, h1, takeLast_absorb, List.append_assoc, List.singleton_append]

/-- C8: starting from the empty logger, `1024 + k` appends leave exactly the
most recent 1024 entries, in insertion order; and every read first applies
the level and grep filters to the whole buffer and then keeps the most recent
`n` matching messages in original order — all of them when fewer than `n`
match. -/
theorem c8_ring_buffer :
    (∀ (entries : List (String × String)) (k : Nat), entries.length = 1024 + k →
      (entries.foldl (fun acc e => logAppend acc e.1 e.2) loggerInit).logs =
        takeLast 1024 entries)
    ∧ (∀ st n lf gp,
        getLogs st n lf gp =
          takeLast n ((st.logs.filter
            (fun e => levelMatches lf e && grepMatches gp e)).map Prod.snd)
        ∧ (((st.logs.filter (fun e => levelMatches lf e && grepMatches gp e)).map
              Prod.snd).length ≤ n →
            getLogs st n lf gp =
              (st.logs.filter
                (fun e => levelMatches lf e && grepMatches gp e)).map Prod.snd)) := by
  constructor
  · intro entries k hlen
    have := foldl_logAppend_logs entries loggerInit rfl (by simp [loggerInit]) (by norm_num [loggerInit])
    rw [this]
    rfl
  · intro st n lf gp
    have key : getLogs st n lf gp =
        takeLast n ((st.logs.filter
          (fun e => levelMatches lf e && grepMatches gp e)).map Prod.snd) := by
      cases lf with
      | none =>
        cases gp with
        | none => simp [getLogs, levelMatches, grepMatches]
        | some p => simp [getLogs, levelMatches, grepMatches]
      | some lv =>
        cases gp with
        | none => simp [getLogs, levelMatches, grepMatches]
        | some p =>
          simp only [getLogs, levelMatches, grepMatches, List.filter_filter]
          have hcomm : st.logs.filter (fun a => p a.2 && a.1 == lv) =
              st.logs.filter (fun e => e.1 == lv && p e.2) :=
            List.filter_congr (fun a _ => Bool.and_comm _ _)
          rw [hcomm]
    refine ⟨key, ?_⟩
    intro hlen
    rw [key, takeLast_of_length_le n _ hlen]

/-- Witness for C8: 1025 identical appends retain the last 1024 entries, and
a read asking for more messages than match returns all matches. -/
theorem c8_ring_buffer_witness :
    ((List.replicate 1025 (("info", "m") : String × String)).foldl
        (fun acc e => logAppend acc e.1 e.2) loggerInit).logs =
      takeLast 1024 (List.replicate 1025 (("info", "m") : String × String))
    ∧ getLogs { logs := [("info", "a"), ("error", "b")], size := 2, max := 1024 } 5
        (some "error") none =
      ([("info", "a"), ("error", "b")].filter
        (fun e => levelMatches (some "error") e && grepMatches none e)).map Prod.snd :=
  ⟨c8_ring_buffer.1 _ 1 (by simp only [List.length_replicate]),
   (c8_ring_buffer.2 { logs := [("info", "a"), ("error", "b")], size := 2, max := 1024 } 5
      (some "error") none).2 (by decide)⟩

/-! ### JSON values and the two HTTP routers (`Pi.MCP.Http` / `Pi.MCP.Router`) -/

/-- Decoded JSON values, as produced by `Jason.decode`. -/
inductive Json where
  | null
  | bool (b : Bool)
  | num (n : Int)
  | str (s : String)
  | arr (items : List Json)
  | obj (fields : List (String × Json))

/-- Key access on a decoded JSON object (`j["k"]` / map pattern matching);
non-objects carry no keys. -/
def Json.get : Json → String → Option Json
  | .obj fields, key => fields.lookup key
  | _, _ => none

/-- The string value at a key, when present and a string: an Elixir map
pattern binding a key to a binary literal matches exactly when the value at
that key is that binary. -/
def Json.getStr? (j : Json) (key : String) : Option String :=
  match j.get key with
  | some (.str s) => some s
  | _ => none

/-- The seven tool names `Pi.MCP.Tools.dispatch` recognises. -/
def knownTools : List String :=
  ["project_eval", "get_docs", "get_source_location", "execute_sql_query",
   "get_logs", "get_ecto_schemas", "search_package_docs"]

/-- Elixir string interpolation restricted to the scalar JSON values, the
total projection used by the total router below (whose theorems carry
hypotheses keeping the name a string); interpolating a decoded list or map
can raise in Elixir, which `jsonInterp` on the raising router models. -/
def jsonChardata : Json → String
  | .str s => s
  | .null => ""
  | .bool b => if b then "true" else "false"
  | .num n => toString n
  | .arr _ => ""
  | .obj _ => ""

/-- `Pi.MCP.Tools.dispatch`: route a tool name to one of the seven tool
implementations (runtime introspection against the live node, abstracted as
`impl`); any other name yields the per-call error result
`{:error, "Unknown tool: ..."}`. -/
def dispatch (impl : String → Json → Except String String) (name : Json) (args : Json) :
    Except String String :=
  match name with
  | .str s => if knownTools.contains s then impl s args else .error ("Unknown tool: " ++ s)
  | other => .error ("Unknown tool: " ++ jsonChardata other)

/-- An HTTP response body: an encoded JSON document or plain text. -/
inductive RespBody where
  | json (j : Json)
  | text (s : String)

/-- `params["arguments"] || %{}`: `nil` and `false` are falsy in Elixir. -/
def argsOrEmpty : Option Json → Json
  | some .null => .obj []
  | some (.bool false) => .obj []
  | some v => v
  | none => .obj []

/-- `Pi.MCP.Http.route` (the hand-rolled `:gen_tcp` router).  `body` is the
outcome of `Jason.decode` on the raw request body (`none` = decode failure). -/
def route (impl : String → Json → Except String String) (projectName : String)
    (method path : String) (body : Option Json) : Nat × RespBody :=
  if method = "GET" ∧ path = "/config" then
    (200, .json (.obj [("project_name", .str projectName),
                       ("framework_type", .str "embedded")]))
  else if method = "POST" ∧ path = "/mcp" then
    match body with
    | some j =>
      if j.getStr? "jsonrpc" = some "2.0" ∧ (j.get "id").isSome = true ∧
          j.getStr? "method" = some "tools/call" ∧ (j.get "params").isSome = true then
        let idv := (j.get "id").getD .null
        let params := (j.get "params").getD .null
        let name := (params.get "name").getD .null
        let args := argsOrEmpty (params.get "arguments")
        match dispatch impl name args with
        | .ok text =>
          (200, .json (.obj [("jsonrpc", .str "2.0"), ("id", idv),
            ("result", .obj [("content",
              .arr [.obj [("type", .str "text"), ("text", .str text)]])])]))
        | .error message =>
          (200, .json (.obj [("jsonrpc", .str "2.0"), ("id", idv),
            ("result", .obj [("content",
              .arr [.obj [("type", .str "text"), ("text", .str message)]]),
              ("isError", .bool true)])]))
      else if j.getStr? "jsonrpc" = some "2.0" ∧ (j.get "id").isSome = true then
        (200, .json (.obj [("jsonrpc", .str "2.0"), ("id", (j.get "id").getD .null),
                           ("result", .obj [])]))
      else (400, .json (.obj [("error", .str "Invalid request")]))
    | none => (400, .json (.obj [("error", .str "Invalid request")]))
  else (404, .text "Not Found")

/-- `Plug.Parsers` body presentation: decoded non-map JSON reaches the router
wrapped as `%{"_json" => value}`. -/
def plugBodyParams : Json → Json
  | .obj fields => .obj fields
  | v => .obj [("_json", v)]

/-- Modelled from the spec: the `Plug.Parsers` stage (library code hosting
`Pi.MCP.Router`, not part of this repository) rejects a malformed JSON body
before the route body runs; §4.4 requires malformed bodies to yield the
fixed-shape protocol error with HTTP 400 identically on both transports
(scenario: `POST /mcp` with body `not valid json` → HTTP 400). -/
def plugParseFailure : Nat × RespBody :=
  (400, .json (.obj [("error", .str "Invalid request")]))

/-! ### Raising-aware model of the two transports

The Elixir request handling can raise: `params["name"]` on a non-map
`params`, string interpolation of a non-chardata tool name, and raising tool
code (`Pi.MCP.Logger.get_logs` hits `Regex.compile!` on an invalid grep and
`Map.fetch!` on an unknown level).  An exception is the one point where the
two transports behave differently, so here raising is modelled explicitly
(`Except.error` = an exception escaping the route body). -/

/-- Elixir `Access` (`value[key]`), as `params["name"]` and
`params["arguments"]` use it: a map looks the key up (`none` = key absent,
hence `nil`), `nil[key]` is `nil`, and every other value — numbers, strings,
lists, booleans — raises. -/
def Json.access : Json → String → Except Unit (Option Json)
  | .obj fields, key => .ok (fields.lookup key)
  | .null, _ => .ok none
  | _, _ => .error ()

/-- One charlist entry as a Unicode codepoint; out-of-range codepoints make
`to_string` raise. -/
def charOfCodepoint (n : Int) : Except Unit String :=
  if 0 ≤ n ∧ Nat.isValidChar n.toNat then .ok (String.singleton (Char.ofNat n.toNat))
  else .error ()

mutual
/-- One element of interpolated chardata: binaries embed, integers are
codepoints, nested lists recurse, anything else raises. -/
def chardataItem : Json → Except Unit String
  | .str s => .ok s
  | .num n => charOfCodepoint n
  | .arr items => chardataList items
  | _ => .error ()

/-- `to_string` of a decoded JSON list interpreted as chardata. -/
def chardataList : List Json → Except Unit String
  | [] => .ok ""
  | j :: rest =>
    match chardataItem j with
    | .error e => .error e
    | .ok s =>
      match chardataList rest with
      | .error e => .error e
      | .ok t => .ok (s ++ t)
end

/-- Elixir string interpolation of a decoded JSON value (`String.Chars`):
binaries embed, `nil` is empty, the boolean atoms print, integers print in
decimal, lists are interpreted as chardata (raising on invalid content), and
maps raise `Protocol.UndefinedError`. -/
def jsonInterp : Json → Except Unit String
  | .str s => .ok s
  | .null => .ok ""
  | .bool b => .ok (if b then "true" else "false")
  | .num n => .ok (toString n)
  | .arr items => chardataList items
  | .obj _ => .error ()

/-- The outcome of one tool implementation call: an `{:ok, text}` result, an
`{:error, text}` result, or a raise escaping into the router process. -/
inductive ToolOutcome where
  | ok (text : String)
  | error (text : String)
  | raised

/-- `Pi.MCP.Tools.dispatch` with raising made explicit: a known name runs the
tool body (which may itself raise); any other name builds the
`Unknown tool:` message by interpolation, which raises on a non-chardata
name. -/
def dispatchE (impl : String → Json → ToolOutcome) (name : Json) (args : Json) :
    Except Unit (Except String String) :=
  match name with
  | .str s =>
    if knownTools.contains s then
      match impl s args with
      | .ok text => .ok (.ok text)
      | .error text => .ok (.error text)
      | .raised => .error ()
    else .ok (.error ("Unknown tool: " ++ s))
  | other =>
    match jsonInterp other with
    | .ok rendered => .ok (.error ("Unknown tool: " ++ rendered))
    | .error e => .error e

/-- `Pi.MCP.Http.route` with raising made explicit: `params["name"]` and
`params["arguments"]` go through `Json.access`, and a raise in them or in
`dispatch` escapes the route body. -/
def routeE (impl : String → Json → ToolOutcome) (projectName : String)
    (method path : String) (body : Option Json) : Except Unit (Nat × RespBody) :=
  if method = "GET" ∧ path = "/config" then
    .ok (200, .json (.obj [("project_name", .str projectName),
                           ("framework_type", .str "embedded")]))
  else if method = "POST" ∧ path = "/mcp" then
    match body with
    | some j =>
      if j.getStr? "jsonrpc" = some "2.0" ∧ (j.get "id").isSome = true ∧
          j.getStr? "method" = some "tools/call" ∧ (j.get "params").isSome = true then
        let idv := (j.get "id").getD .null
        let params := (j.get "params").getD .null
        match Json.access params "name" with
        | .error e => .error e
        | .ok nameOpt =>
          match Json.access params "arguments" with
          | .error e => .error e
          | .ok argsOpt =>
            match dispatchE impl (nameOpt.getD .null) (argsOrEmpty argsOpt) with
            | .error e => .error e
            | .ok (.ok text) =>
              .ok (200, .json (.obj [("jsonrpc", .str "2.0"), ("id", idv),
                ("result", .obj [("content",
                  .arr [.obj [("type", .str "text"), ("text", .str text)]])])]))
            | .ok (.error message) =>
              .ok (200, .json (.obj [("jsonrpc", .str "2.0"), ("id", idv),
                ("result", .obj [("content",
                  .arr [.obj [("type", .str "text"), ("text", .str message)]]),
                  ("isError", .bool true)])]))
      else if j.getStr? "jsonrpc" = some "2.0" ∧ (j.get "id").isSome = true then
        .ok (200, .json (.obj [("jsonrpc", .str "2.0"), ("id", (j.get "id").getD .null),
                               ("result", .obj [])]))
      else .ok (400, .json (.obj [("error", .str "Invalid request")]))
    | none => .ok (400, .json (.obj [("error", .str "Invalid request")]))
  else .ok (404, .text "Not Found")

/-- `Pi.MCP.Router` (the Plug-based router) with raising made explicit,
acting on `conn.body_params`. -/
def plugRouteE (impl : String → Json → ToolOutcome) (projectName : String)
    (method path : String) (bodyParams : Json) : Except Unit (Nat × RespBody) :=
  if method = "GET" ∧ path = "/config" then
    .ok (200, .json (.obj [("project_name", .str projectName),
                           ("framework_type", .str "embedded")]))
  else if method = "POST" ∧ path = "/mcp" then
    let j := bodyParams
    if j.getStr? "jsonrpc" = some "2.0" ∧ (j.get "id").isSome = true ∧
        j.getStr? "method" = some "tools/call" ∧ (j.get "params").isSome = true then
      let idv := (j.get "id").getD .null
      let params := (j.get "params").getD .null
      match Json.access params "name" with
      | .error e => .error e
      | .ok nameOpt =>
        match Json.access params "arguments" with
        | .error e => .error e
        | .ok argsOpt =>
          match dispatchE impl (nameOpt.getD .null) (argsOrEmpty argsOpt) with
          | .error e => .error e
          | .ok (.ok text) =>
            .ok (200, .json (.obj [("jsonrpc", .str "2.0"), ("id", idv),
              ("result", .obj [("content",
                .arr [.obj [("type", .str "text"), ("text", .str text)]])])]))
          | .ok (.error message) =>
            .ok (200, .json (.obj [("jsonrpc", .str "2.0"), ("id", idv),
              ("result", .obj [("content",
                .arr [.obj [("type", .str "text"), ("text", .str message)]]),
                ("isError", .bool true)])]))
    else if j.getStr? "jsonrpc" = some "2.0" ∧ (j.get "id").isSome = true ∧
        j.getStr? "method" = some "initialize" then
      .ok (200, .json (.obj [("jsonrpc", .str "2.0"), ("id", (j.get "id").getD .null),
                             ("result", .obj [])]))
    else if j.getStr? "jsonrpc" = some "2.0" ∧ (j.get "id").isSome = true then
      .ok (200, .json (.obj [("jsonrpc", .str "2.0"), ("id", (j.get "id").getD .null),
                             ("result", .obj [])]))
    else .ok (400, .json (.obj [("error", .str "Invalid request")]))
  else .ok (404, .text "Not Found")

/-- What a client observes from one request: a response with status and
body, the connection closed with no response at all (the hand-rolled
server's `rescue` path), or a host-rendered error response — the Plug host
stack, not repository code, converts an escaped exception into an error
response of its own (HTTP 500 under Bandit/Cowboy). -/
inductive HttpObservable where
  | resp (status : Nat) (body : RespBody)
  | closed
  | hostError

/-- `Pi.MCP.Http.serve`: an exception anywhere in the request handling is
rescued (`rescue _ -> :ok`) and the socket closed without sending any
response. -/
def serveGenTcp (impl : String → Json → ToolOutcome) (projectName : String)
    (method path : String) (body : Option Json) : HttpObservable :=
  match routeE impl projectName method path body with
  | .ok r => .resp r.1 r.2
  | .error _ => .closed

/-- The Plug-hosted pipeline as observed by a client: the parser stage
rejects malformed bodies (`plugParseFailure`, modelled from the spec), the
router answers, and an exception escaping the router is rendered by the host
stack as an error response. -/
def plugServe (impl : String → Json → ToolOutcome) (projectName : String)
    (method path : String) (body : Option Json) : HttpObservable :=
  match body with
  | none => .resp plugParseFailure.1 plugParseFailure.2
  | some v =>
    match plugRouteE impl projectName method path (plugBodyParams v) with
    | .ok r => .resp r.1 r.2
    | .error _ => .hostError

/-- C9: on the embedded server a `POST /mcp` whose body fails to decode
yields HTTP 400 with the fixed-shape error body (`route` is a total function:
no input crashes it), while a well-formed `tools/call` envelope naming an
unknown tool yields HTTP 200 with the per-call `isError` flag and the text
`Unknown tool: <name>`, so the endpoint remains usable. -/
theorem c9_protocol_errors (impl : String → Json → Except String String) (pn : String) :
    (route impl pn "POST" "/mcp" none =
      (400, .json (.obj [("error", .str "Invalid request")])))
    ∧ (∀ j idv params name,
        j.getStr? "jsonrpc" = some "2.0" → j.get "id" = some idv →
        j.getStr? "method" = some "tools/call" → j.get "params" = some params →
        params.get "name" = some (.str name) → knownTools.contains name = false →
        route impl pn "POST" "/mcp" (some j) =
          (200, .json (.obj [("jsonrpc", .str "2.0"), ("id", idv),
            ("result", .obj [("content",
              .arr [.obj [("type", .str "text"),
                          ("text", .str ("Unknown tool: " ++ name))]]),
              ("isError", .bool true)])]))) := by
  constructor
  · rfl
  · intro j idv params name h1 h2 h3 h4 h5 h6
    have h7 : ¬ name ∈ knownTools := by simpa using h6
    simp [route, dispatch, h1, h2, h3, h4, h5, h6, h7]

/-- Witness for C9: the envelope calling the unknown tool `frobnicate` gets
the 200 per-call error result. -/
theorem c9_protocol_errors_witness :
    route (fun _ _ => .ok "") "my_app" "POST" "/mcp"
        (some (.obj [("jsonrpc", .str "2.0"), ("id", .num 1),
                     ("method", .str "tools/call"),
                     ("params", .obj [("name", .str "frobnicate"),
                                      ("arguments", .obj [])])])) =
      (200, .json (.obj [("jsonrpc", .str "2.0"), ("id", .num 1),
        ("result", .obj [("content",
          .arr [.obj [("type", .str "text"),
                      ("text", .str ("Unknown tool: " ++ "frobnicate"))]]),
          ("isError", .bool true)])])) :=
  (c9_protocol_errors (fun _ _ => .ok "") "my_app").2 _ (.num 1) _ "frobnicate"
    rfl rfl rfl rfl rfl (by decide)

/-- Counterexample to C10 as stated: for the tools/call envelope whose
`params` is the JSON array `[]`, both routers raise in `params["name"]`
(Elixir `Access` on a list raises) — the hand-rolled server rescues the
exception and closes the socket without sending any response, while the
Plug host turns the escaped exception into a host-rendered error response,
so the two transports do not produce the same observable response. -/
theorem c10_counterexample :
    serveGenTcp (fun _ _ => .ok "") "my_app" "POST" "/mcp"
        (some (.obj [("jsonrpc", .str "2.0"), ("id", .num 1),
                     ("method", .str "tools/call"), ("params", .arr [])])) = .closed
    ∧ plugServe (fun _ _ => .ok "") "my_app" "POST" "/mcp"
        (some (.obj [("jsonrpc", .str "2.0"), ("id", .num 1),
                     ("method", .str "tools/call"), ("params", .arr [])])) = .hostError := by
  constructor
  · rfl
  · rfl

/-- C10 (amended): the two router functions compute identical outcomes on
every decoded request — the same (status, body) whenever they answer, and a
raise on exactly the same requests — so the transports produce the same
observable response on `GET /config`, on any other method/path, on a
malformed `POST /mcp` body (both 400, the Plug parser stage modelled from
the spec) and on every `POST /mcp` body whose handling does not raise; on
the raising requests the hand-rolled server closes the connection without a
response while the Plug host renders an error response of its own, so the
transports observably diverge exactly there. -/
theorem c10_router_equivalence (impl : String → Json → ToolOutcome) (pn : String) :
    (∀ method path v,
      routeE impl pn method path (some v) =
        plugRouteE impl pn method path (plugBodyParams v))
    ∧ (∀ method path v status b,
        routeE impl pn method path (some v) = .ok (status, b) →
        serveGenTcp impl pn method path (some v) = .resp status b
        ∧ plugServe impl pn method path (some v) = .resp status b)
    ∧ (serveGenTcp impl pn "POST" "/mcp" none =
        .resp 400 (.json (.obj [("error", .str "Invalid request")]))
      ∧ plugServe impl pn "POST" "/mcp" none =
        .resp 400 (.json (.obj [("error", .str "Invalid request")])))
    ∧ (∀ method path v,
        routeE impl pn method path (some v) = .error () →
        serveGenTcp impl pn method path (some v) = .closed
        ∧ plugServe impl pn method path (some v) = .hostError) := by
  have hroutes : ∀ method path v,
      routeE impl pn method path (some v) =
        plugRouteE impl pn method path (plugBodyParams v) := by
    intro method path v
    by_cases hg : method = "GET" ∧ path = "/config"
    · simp [routeE, plugRouteE, hg]
    · by_cases hp : method = "POST" ∧ path = "/mcp"
      · cases v with
        | obj fields =>
          by_cases h1 : (Json.obj fields).getStr? "jsonrpc" = some "2.0" ∧
              ((Json.obj fields).get "id").isSome = true ∧
              (Json.obj fields).getStr? "method" = some "tools/call" ∧
              ((Json.obj fields).get "params").isSome = true
          · simp [routeE, plugRouteE, plugBodyParams, hg, hp, h1]
          · by_cases h2 : (Json.obj fields).getStr? "jsonrpc" = some "2.0" ∧
                ((Json.obj fields).get "id").isSome = true
            · by_cases h3 : (Json.obj fields).getStr? "jsonrpc" = some "2.0" ∧
                  ((Json.obj fields).get "id").isSome = true ∧
                  (Json.obj fields).getStr? "method" = some "initialize"
              · simp [routeE, plugRouteE, plugBodyParams, hg, hp, h1, h2, h3]
              · simp [routeE, plugRouteE, plugBodyParams, hg, hp, h1, h2, h3]
            · have h3 : ¬((Json.obj fields).getStr? "jsonrpc" = some "2.0" ∧
                  ((Json.obj fields).get "id").isSome = true ∧
                  (Json.obj fields).getStr? "method" = some "initialize") := by
                intro hh
                exact h2 ⟨hh.1, hh.2.1⟩
              simp [routeE, plugRouteE, plugBodyParams, hg, hp, h1, h2, h3]
        | null => simp [routeE, plugRouteE, plugBodyParams, Json.getStr?, Json.get, hg, hp]
        | bool b => simp [routeE, plugRouteE, plugBodyParams, Json.getStr?, Json.get, hg, hp]
        | num n => simp [routeE, plugRouteE, plugBodyParams, Json.getStr?, Json.get, hg, hp]
        | str s => simp [routeE, plugRouteE, plugBodyParams, Json.getStr?, Json.get, hg, hp]
        | arr xs => simp [routeE, plugRouteE, plugBodyParams, Json.getStr?, Json.get, hg, hp]
      · simp [routeE, plugRouteE, hg, hp]
  refine ⟨hroutes, ?_, ⟨rfl, rfl⟩, ?_⟩
  · intro method path v status b h
    constructor
    · simp [serveGenTcp, h]
    · simp [plugServe, ← hroutes method path v, h]
  · intro method path v h
    constructor
    · simp [serveGenTcp, h]
    · simp [plugServe, ← hroutes method path v, h]

/-- Witness for C10 (amended): `GET /config` is answered (does not raise),
and both transports return the identical 200 identity payload. -/
theorem c10_router_equivalence_witness :
    serveGenTcp (fun _ _ => .ok "") "my_app" "GET" "/config" (some (.obj [])) =
      .resp 200 (.json (.obj [("project_name", .str "my_app"),
                              ("framework_type", .str "embedded")]))
    ∧ plugServe (fun _ _ => .ok "") "my_app" "GET" "/config" (some (.obj [])) =
      .resp 200 (.json (.obj [("project_name", .str "my_app"),
                              ("framework_type", .str "embedded")])) :=
  (c10_router_equivalence (fun _ _ => .ok "") "my_app").2.1 "GET" "/config" (.obj []) _ _ rfl

end PiElixir
